import Mathlib

/-!
Verification of the zcommit command-line tool (an AI-assisted git commit
helper written in JavaScript) against its natural-language specification.

The JavaScript modules are shallowly embedded here.  JavaScript strings are
modelled as `List Char` (the inputs of interest are ASCII, where UTF-16 code
units coincide with code points); `String` wrappers are provided for
readable theorem statements.  Fallible operations are modelled with
`Option`/`Except`, and the retry loop of the network client is modelled as a
function of the per-attempt outcome sequence.
-/

namespace Zcommit

/-! ## JavaScript string primitives -/

/-- Whitespace characters recognised by the JavaScript `trim` method
(restricted to the ASCII range used throughout this development). -/
def isJsWs (c : Char) : Bool :=
  c = ' ' || c = '\t' || c = '\n' || c = '\r' || c = '\x0b' || c = '\x0c'

/-- JavaScript `String.prototype.trim`: remove leading and trailing
whitespace. -/
def jsTrim (l : List Char) : List Char :=
  ((l.dropWhile isJsWs).reverse.dropWhile isJsWs).reverse

/-- JavaScript `raw.split("\n")`: split on the newline character, keeping
empty pieces. -/
def splitOnNl (l : List Char) : List (List Char) :=
  l.splitOn '\n'

/-- JavaScript `haystack.includes(needle)`. -/
def containsCL : List Char → List Char → Bool
  | [], pat => pat.isEmpty
  | c :: t, pat => pat.isPrefixOf (c :: t) || containsCL t pat

/-- JavaScript `s.replace(/pat/g, rep)` for a plain (regex-free) nonempty
pattern `p :: ps`: replace each non-overlapping occurrence, scanning left to
right. -/
def replaceAll (p : Char) (ps rep : List Char) : List Char → List Char
  | [] => []
  | c :: cs =>
    if (p :: ps).isPrefixOf (c :: cs) then
      rep ++ replaceAll p ps rep (cs.drop ps.length)
    else
      c :: replaceAll p ps rep cs
termination_by l => l.length
decreasing_by
  · simp [List.length_drop]
    omega
  · simp

/-- JavaScript `haystack.indexOf(needle)`, as an `Option` instead of `-1`. -/
def findSubIdx : List Char → List Char → Option Nat
  | [], pat => if pat.isEmpty then some 0 else none
  | c :: t, pat =>
    if pat.isPrefixOf (c :: t) then some 0
    else (findSubIdx t pat).map (· + 1)

/-- JavaScript `<` on strings: lexicographic comparison by code unit, with a
proper prefix comparing smaller. -/
def jsStrLt : List Char → List Char → Bool
  | [], [] => false
  | [], _ :: _ => true
  | _ :: _, [] => false
  | a :: as, b :: bs => a < b || (a = b && jsStrLt as bs)

/-- JavaScript `<=` on strings. -/
def jsStrLe (a b : List Char) : Bool :=
  jsStrLt a b || a == b

/-- Decimal digits of a natural number, as produced by JavaScript
`String(n)` for a nonnegative integer. -/
def natDec (n : Nat) : List Char :=
  (toString n).data

/-- JavaScript `parseInt(s, 10)` restricted to its defined fragment: the
value of the leading run of decimal digits, or `none` (NaN) when there is no
leading digit. -/
def jsParseInt (l : List Char) : Option Nat :=
  let ds := l.takeWhile (·.isDigit)
  if ds.isEmpty then none
  else some (ds.foldl (fun a c => a * 10 + (c.toNat - 48)) 0)

/-! ## ai.js — response parsing (`parseMessages`, src/src/ai.js lines 102-131) -/

/-- The enumeration-marker characters of the regex `[\.\):\-]` in
src/src/ai.js line 112. -/
def isEnumMark (c : Char) : Bool :=
  c = '.' || c = ')' || c = ':' || c = '-'

/-- JavaScript `line.replace(/^\d+[\.\):\-]\s*/, "")` (src/src/ai.js line
112): strip a leading run of at least one digit followed by one of
`.`, `)`, `:`, `-` and any following whitespace; otherwise leave the line
unchanged. -/
def stripEnum (l : List Char) : List Char :=
  let ds := l.takeWhile (·.isDigit)
  let rest := l.dropWhile (·.isDigit)
  if ds.isEmpty then l
  else
    match rest with
    | [] => l
    | m :: r => if isEnumMark m then r.dropWhile isJsWs else l

/-- Quote characters of the regex in src/src/ai.js line 115: double quote,
single quote, backtick. -/
def isQuoteChar (c : Char) : Bool :=
  c = '"' || c = '\'' || c = '\x60'

/-- JavaScript `cleaned.replace(/^["'`]+|["'`]+$/g, "")` (src/src/ai.js
line 115): strip the leading and trailing runs of quote characters. -/
def stripQuotes (l : List Char) : List Char :=
  ((l.dropWhile isQuoteChar).reverse.dropWhile isQuoteChar).reverse

/-- The per-line cleanup of src/src/ai.js lines 112-115: strip a numbered
marker, trim, strip surrounding quotes. -/
def cleanLine (l : List Char) : List Char :=
  stripQuotes (jsTrim (stripEnum l))

/-- The fallback commit message of src/src/ai.js line 127. -/
def fillerMsg : List Char :=
  "chore: update project files".data

/-- The candidate-collecting loop of src/src/ai.js lines 110-123: clean each
line, keep it when its cleaned length is in (0, 200), and stop once three
candidates are collected. -/
def collectMsgs : List (List Char) → List (List Char) → List (List Char)
  | [], acc => acc
  | line :: rest, acc =>
    let u := cleanLine line
    let acc' := if 0 < u.length ∧ u.length < 200 then acc ++ [u] else acc
    if 3 ≤ acc'.length then acc' else collectMsgs rest acc'

/-- The function `parseMessages` of src/src/ai.js lines 102-131, over
character lists: split into nonempty trimmed lines, collect up to three
cleaned candidates, pad with the filler message, return the first three. -/
def parseMessagesL (raw : List Char) : List (List Char) :=
  let lines := ((splitOnNl raw).map jsTrim).filter (· ≠ [])
  let msgs := collectMsgs lines []
  (msgs ++ List.replicate (3 - msgs.length) fillerMsg).take 3

/-- `parseMessages` over Lean strings. -/
def parseMessages (raw : String) : List String :=
  (parseMessagesL raw.data).map String.mk

/-- The message object of the chat-completion response
(`response.choices[0]?.message`): a primary `content` field and an auxiliary
`reasoning` field, each possibly absent. -/
structure AiMessage where
  content : Option String
  reasoning : Option String
deriving DecidableEq

/-- The success path of `generateCommitMessages` (src/src/ai.js lines
59-60): `parseMessages(response.choices[0]?.message?.content || "")`.  The
`reasoning` field of the message is not consulted. -/
def responseMessages (m : AiMessage) : List String :=
  parseMessages (m.content.getD "")

/-! ## ai.js — the retry loop of `generateCommitMessages`
(src/src/ai.js lines 45-77) -/

/-- `MAX_RETRIES` of src/src/ai.js line 2. -/
def MAX_RETRIES : Nat := 2

/-- `RETRY_DELAYS` of src/src/ai.js line 4 (milliseconds). -/
def RETRY_DELAYS : List Nat := [1000, 3000]

/-- The error thrown by a failed network call, carrying the optional HTTP
status field inspected by the retry loop (timeouts and connection errors
carry no status). -/
structure ApiError where
  status : Option Nat
deriving DecidableEq

/-- The check of src/src/ai.js line 65:
`err.status === 401 || err.status === 403 || err.status === 400`. -/
def isAuthError (e : ApiError) : Bool :=
  e.status = some 401 || e.status = some 403 || e.status = some 400

/-- The outcome of one network attempt: a response content string, or a
thrown error. -/
inductive Attempt where
  | ok (content : String)
  | fail (e : ApiError)

/-- One iteration of the retry loop of src/src/ai.js lines 47-74 starting at
index `attempt`, given the outcome of each attempt.  Returns the overall
result (parsed messages, or the propagated error) together with the list of
sleep delays performed, in order. -/
def genRec (outcomes : Nat → Attempt) (attempt : Nat) :
    Except ApiError (List String) × List Nat :=
  match outcomes attempt with
  | .ok c => (.ok (parseMessages c), [])
  | .fail e =>
    if isAuthError e then (.error e, [])
    else if h : attempt < MAX_RETRIES then
      let r := genRec outcomes (attempt + 1)
      (r.1, (RETRY_DELAYS.getD attempt 0) :: r.2)
    else (.error e, [])
termination_by MAX_RETRIES + 1 - attempt
decreasing_by omega

/-- The function `generateCommitMessages` of src/src/ai.js lines 23-77,
restricted to its retry/parse behaviour: attempts start at 0. -/
def generateCommitMessages (outcomes : Nat → Attempt) :
    Except ApiError (List String) × List Nat :=
  genRec outcomes 0

/-! ## ui.js — the interactive selector (src/unnamed/part_000 lines 364-462) -/

/-- Initial cursor of the selector (`let selected = 0`, src/unnamed/part_000
line 371). -/
def selectInitialCursor : Nat := 0

/-- The cursor update performed by `onKeypress` (src/unnamed/part_000 lines
406-452) for a raw input chunk `key`, where `n` is `choices.length`.  Keys
that terminate the selector (Ctrl+C, Enter) and unrecognised keys leave the
cursor unchanged. -/
def onKeyCursor (n : Nat) (cursor : Nat) (key : List Char) : Nat :=
  if key = "\x03".data then cursor
  else if key = "\r".data ∨ key = "\n".data then cursor
  else if key = "\x1b[A".data ∨ key = "k".data then (cursor + n - 1) % n
  else if key = "\x1b[B".data ∨ key = "j".data then (cursor + 1) % n
  else if jsStrLe "1".data key ∧ jsStrLe key (natDec n) then
    (jsParseInt key).getD 0 - 1
  else cursor

/-- The up and down keys recognised by the selector. -/
def isUpDownKey (k : List Char) : Prop :=
  k = "\x1b[A".data ∨ k = "k".data ∨ k = "\x1b[B".data ∨ k = "j".data

instance (k : List Char) : Decidable (isUpDownKey k) := by
  unfold isUpDownKey
  infer_instance

/-- Terminal-affecting effects performed by the selector and the process
signal handlers. -/
inductive TermEffect where
  | setRawMode (enabled : Bool)
  | pauseStdin
  | removeDataListener
  | write (s : String)
  | logLine (s : String)
  | exitProcess (code : Nat)
deriving DecidableEq

/-- The `cleanup` closure of the selector (src/unnamed/part_000 lines
454-458): leave raw mode, pause stdin, remove the keypress listener. -/
def cleanupEffects : List TermEffect :=
  [.setRawMode false, .pauseStdin, .removeDataListener]

/-- `restoreCursor` of src/unnamed/part_000 lines 236-240: write the
show-cursor escape when stdout is a TTY. -/
def restoreCursorEffects (isTTY : Bool) : List TermEffect :=
  if isTTY then [.write "\x1b[?25h"] else []

/-- The Ctrl+C branch of `onKeypress` (src/unnamed/part_000 lines 407-413),
taken when the raw-mode input chunk is the byte 0x03: cleanup, restore the
cursor, write a newline, exit the process with code 0. -/
def ctrlCEffects (isTTY : Bool) : List TermEffect :=
  cleanupEffects ++ restoreCursorEffects isTTY ++ [.write "\n", .exitProcess 0]

/-- `restoreStdin` of src/unnamed/part_000 lines 243-252: leave raw mode
when stdin is a raw-mode TTY, then pause stdin. -/
def restoreStdinEffects (stdinRawTTY : Bool) : List TermEffect :=
  (if stdinRawTTY then [.setRawMode false] else []) ++ [.pauseStdin]

/-- The `SIGINT` handler of src/unnamed/part_001 lines 67-71: restore the
cursor and stdin, print a note, exit with code 130.  This handler fires only
when the terminal delivers the interrupt as a signal, which raw mode
suppresses. -/
def sigintEffects (isTTY stdinRawTTY : Bool) : List TermEffect :=
  restoreCursorEffects isTTY ++ restoreStdinEffects stdinRawTTY ++
    [.logLine "\n  Interrupted.\n", .exitProcess 130]

/-! ## git.js — status parsing (src/src/git.js lines 42-218) -/

/-- The function `unquote` of src/src/git.js lines 42-53: remove the
C-style quoting that git applies to file names with special characters. -/
def unquote (name : List Char) : List Char :=
  if "\"".data.isPrefixOf name ∧ "\"".data.isSuffixOf name then
    let inner := (name.drop 1).dropLast
    replaceAll '\\' "\"".data "\"".data
      (replaceAll '\\' "\\".data "\\".data
        (replaceAll '\\' "t".data "\t".data
          (replaceAll '\\' "n".data "\n".data inner)))
  else name

/-- The function `parseFilename` of src/src/git.js lines 60-70: split a
rename entry `old -> new` at the first arrow, unquoting both sides. -/
def parseFilename (raw : List Char) : List Char × Option (List Char) :=
  match findSubIdx raw " -> ".data with
  | some i => (unquote (raw.drop (i + 4)), some (unquote (raw.take i)))
  | none => (unquote raw, none)

/-- The `STATUS_LABELS` table of src/src/git.js lines 134-143, with the
`|| "modified"` fallback applied at every use site. -/
def statusLabel (c : Char) : List Char :=
  if c = 'M' then "modified".data
  else if c = 'A' then "added".data
  else if c = 'D' then "deleted".data
  else if c = 'R' then "renamed".data
  else if c = 'C' then "copied".data
  else if c = 'T' then "typechange".data
  else if c = 'U' then "conflict".data
  else if c = '?' then "untracked".data
  else "modified".data

/-- An entry of the `staged` or `unstaged` lists built by `getStatus`. -/
structure ChangeEntry where
  status : Char
  label : List Char
  file : List Char
  fromPath : Option (List Char)
deriving DecidableEq

/-- An entry of the `all` list built by `getStatus`. -/
structure AllEntry where
  xy : List Char
  file : List Char
  label : List Char
  fromPath : Option (List Char)
deriving DecidableEq

/-- The record returned by `getStatus` (src/src/git.js lines 163-218). -/
structure StatusResult where
  staged : List ChangeEntry
  unstaged : List ChangeEntry
  untracked : List (List Char)
  conflicts : List (List Char)
  all : List AllEntry
deriving DecidableEq

/-- The empty status result. -/
def emptyStatus : StatusResult :=
  ⟨[], [], [], [], []⟩

/-- Concatenation of two status results, list by list. -/
def StatusResult.append (a b : StatusResult) : StatusResult :=
  ⟨a.staged ++ b.staged, a.unstaged ++ b.unstaged, a.untracked ++ b.untracked,
    a.conflicts ++ b.conflicts, a.all ++ b.all⟩

/-- The contribution of one porcelain line to the result of `getStatus`
(the loop body, src/src/git.js lines 173-215).  Lines shorter than two
characters are skipped. -/
def processLine : List Char → StatusResult
  | [] => emptyStatus
  | [_] => emptyStatus
  | x :: y :: tail =>
    let rawName := tail.drop 1
    let fi := parseFilename rawName
    if x = '?' ∧ y = '?' then
      ⟨[], [], [fi.1], [], [⟨"??".data, fi.1, "untracked".data, none⟩]⟩
    else if x = '!' ∧ y = '!' then
      emptyStatus
    else if x = 'U' ∨ y = 'U' ∨ (x = 'A' ∧ y = 'A') ∨ (x = 'D' ∧ y = 'D') then
      ⟨[], [], [], [fi.1], [⟨[x, y], fi.1, "conflict".data, none⟩]⟩
    else
      let staged :=
        if x ≠ ' ' ∧ x ≠ '?' then [⟨x, statusLabel x, fi.1, fi.2⟩] else ([] : List ChangeEntry)
      let unstaged :=
        if y ≠ ' ' then [⟨y, statusLabel y, fi.1, none⟩] else ([] : List ChangeEntry)
      let displayLabel := statusLabel (if x ≠ ' ' ∧ x ≠ '?' then x else y)
      ⟨staged, unstaged, [], [], [⟨[x, y], fi.1, displayLabel, fi.2⟩]⟩

/-- The function `getStatus` of src/src/git.js lines 163-218, given the raw
output of `git status --porcelain` with trailing whitespace removed. -/
def getStatus (raw : List Char) : StatusResult :=
  if raw = [] then emptyStatus
  else (splitOnNl raw).foldl (fun acc l => acc.append (processLine l)) emptyStatus

/-! ## git.js — staged-diff bundling (`getStagedDiff`, src/src/git.js
lines 290-350) -/

/-- The total-size budget `MAX_TOTAL` of src/src/git.js line 307. -/
def MAX_TOTAL : Nat := 12000

/-- The per-file cap `MAX_PER_FILE` of src/src/git.js line 308. -/
def MAX_PER_FILE : Nat := 3000

/-- The per-file truncation marker of src/src/git.js line 332. -/
def fileTruncMarker (file : List Char) : List Char :=
  "\n... [".data ++ file ++ " truncated]".data

/-- The binary-file placeholder of src/src/git.js line 325. -/
def binaryMarker (file : List Char) : List Char :=
  "[binary file: ".data ++ file ++ "]".data

/-- The binary-diff test of src/src/git.js line 324:
`fileDiff.includes("Binary files") && fileDiff.length < 200`. -/
def isBinaryDiffPart (d : List Char) : Bool :=
  containsCL d "Binary files".data && d.length < 200

/-- The per-file part pushed by the loop body of src/src/git.js lines
319-339, together with the amount added to the running total: a binary diff
contributes its placeholder and 30, an oversized diff is cut to its first
`MAX_PER_FILE` characters plus the truncation marker, and any other diff is
included whole. -/
def processFile (file d : List Char) : List Char × Nat :=
  if isBinaryDiffPart d then (binaryMarker file, 30)
  else if MAX_PER_FILE < d.length then
    let t := d.take MAX_PER_FILE ++ fileTruncMarker file
    (t, t.length)
  else (d, d.length)

/-- The bundling loop of src/src/git.js lines 313-340 over the sorted file
list (pairs of file name and staged diff text), carrying the running total:
returns the included parts and the number of files skipped once the total
reaches `MAX_TOTAL`. -/
def bundleFiles : List (List Char × List Char) → Nat → List (List Char) × Nat
  | [], _ => ([], 0)
  | (f, d) :: rest, total =>
    if MAX_TOTAL ≤ total then ([], ((f, d) :: rest).length)
    else
      let pi := processFile f d
      let ps := bundleFiles rest (total + pi.2)
      (pi.1 :: ps.1, ps.2)

/-- The omitted-files marker of src/src/git.js line 343. -/
def omittedMarker (k : Nat) : List Char :=
  "\n... (".data ++ natDec k ++ " more file(s) omitted for brevity)".data

/-- The diff text built by `getStagedDiff` (src/src/git.js lines 313-346):
the included parts, followed by the omitted-files marker when at least one
file was skipped, joined with newlines. -/
def getStagedDiffBundle (files : List (List Char × List Char)) : List Char :=
  let ps := bundleFiles files 0
  let parts := if 0 < ps.2 then ps.1 ++ [omittedMarker ps.2] else ps.1
  List.intercalate "\n".data parts

/-! ## Helper lemmas about the parser -/

theorem collectMsgs_good (lines : List (List Char)) :
    ∀ (acc : List (List Char)),
      (∀ m ∈ acc, 0 < m.length ∧ m.length < 200) →
      ∀ m ∈ collectMsgs lines acc, 0 < m.length ∧ m.length < 200 := by
  induction lines with
  | nil =>
    intro acc hacc m hm
    rw [collectMsgs] at hm
    exact hacc m hm
  | cons line rest ih =>
    intro acc hacc m hm
    rw [collectMsgs] at hm
    by_cases hgood : 0 < (cleanLine line).length ∧ (cleanLine line).length < 200
    · rw [if_pos hgood] at hm
      have hacc' : ∀ u ∈ acc ++ [cleanLine line], 0 < u.length ∧ u.length < 200 := by
        intro u hu
        rcases List.mem_append.mp hu with h | h
        · exact hacc u h
        · rcases List.mem_singleton.mp h with rfl
          exact hgood
      split at hm
      · exact hacc' m hm
      · exact ih _ hacc' m hm
    · rw [if_neg hgood] at hm
      split at hm
      · exact hacc m hm
      · exact ih _ hacc m hm

theorem collectMsgs_length_le (lines : List (List Char)) :
    ∀ acc : List (List Char), acc.length < 3 → (collectMsgs lines acc).length ≤ 3 := by
  induction lines with
  | nil =>
    intro acc h
    rw [collectMsgs]
    omega
  | cons line rest ih =>
    intro acc h
    rw [collectMsgs]
    by_cases hgood : 0 < (cleanLine line).length ∧ (cleanLine line).length < 200
    · rw [if_pos hgood]
      split
      · simp only [List.length_append, List.length_singleton]
        omega
      · rename_i h3
        apply ih
        simp only [List.length_append, List.length_singleton] at h3 ⊢
        omega
    · rw [if_neg hgood]
      split
      · omega
      · exact ih _ h

theorem parseMessagesL_length (raw : List Char) : (parseMessagesL raw).length = 3 := by
  unfold parseMessagesL
  simp only [List.length_take, List.length_append, List.length_replicate]
  omega

theorem parseMessagesL_good (raw : List Char) :
    ∀ m ∈ parseMessagesL raw, 0 < m.length ∧ m.length < 200 := by
  intro m hm
  unfold parseMessagesL at hm
  simp only at hm
  have hm' := List.mem_of_mem_take hm
  rcases List.mem_append.mp hm' with h | h
  · exact collectMsgs_good _ _ (by intro u hu; exact absurd hu (List.not_mem_nil u)) m h
  · rcases List.eq_of_mem_replicate h with rfl
    exact ⟨by decide, by decide⟩

theorem parseMessages_length (raw : String) : (parseMessages raw).length = 3 := by
  unfold parseMessages
  rw [List.length_map, parseMessagesL_length]

theorem parseMessages_good (raw : String) :
    ∀ m ∈ parseMessages raw, m ≠ "" ∧ m.length < 200 := by
  intro m hm
  unfold parseMessages at hm
  rcases List.mem_map.mp hm with ⟨l, hl, rfl⟩
  have h := parseMessagesL_good raw.data l hl
  refine ⟨?_, ?_⟩
  · intro hcon
    have hdata : l = [] := by
      have := congrArg String.data hcon
      simpa using this
    rw [hdata] at h
    simp at h
  · simpa [String.length] using h.2

theorem parseMessagesL_eq_pad (raw : List Char) :
    parseMessagesL raw =
      collectMsgs (((splitOnNl raw).map jsTrim).filter (· ≠ [])) []
        ++ List.replicate
            (3 - (collectMsgs (((splitOnNl raw).map jsTrim).filter (· ≠ [])) []).length)
            fillerMsg := by
  unfold parseMessagesL
  apply List.take_of_length_le
  rw [List.length_append, List.length_replicate]
  have hle := collectMsgs_length_le (((splitOnNl raw).map jsTrim).filter (· ≠ [])) [] (by simp)
  omega

/-! ## Claim theorems -/

/-- C6: `parseMessages` applied to exactly the string
`"1. feat: a\n2. fix: b\n3. chore: c"` returns the list
`["feat: a", "fix: b", "chore: c"]` in that order. -/
theorem parseMessages_roundtrip :
    parseMessages "1. feat: a\n2. fix: b\n3. chore: c" = ["feat: a", "fix: b", "chore: c"] := by
  decide

/-- C9: for every input string, `parseMessages` returns exactly 3
candidates, each nonempty and shorter than 200 characters (padding any
shortfall with the filler message), and therefore the success path of
`generateCommitMessages` always returns a parsed 3-element list rather than
failing with a parse error. -/
theorem parseMessages_total_spec :
    (∀ raw : String, (parseMessages raw).length = 3 ∧
        ∀ m ∈ parseMessages raw, m ≠ "" ∧ m.length < 200) ∧
    (∀ (f : Nat → Attempt) (c : String), f 0 = .ok c →
        generateCommitMessages f = (.ok (parseMessages c), [])) := by
  constructor
  · intro raw
    exact ⟨parseMessages_length raw, parseMessages_good raw⟩
  · intro f c h
    unfold generateCommitMessages
    rw [genRec, h]

/-- Witness for C9 at concrete inputs. -/
theorem parseMessages_total_spec_witness :
    (parseMessages "").length = 3 ∧
    generateCommitMessages (fun _ => .ok "hi") = (.ok (parseMessages "hi"), []) :=
  ⟨(parseMessages_total_spec.1 "").1,
    parseMessages_total_spec.2 (fun _ => .ok "hi") "hi" rfl⟩

/-- C2 counterexample: the code never runs a secondary extraction pass over
the auxiliary reasoning text.  With primary content yielding a single
candidate and a reasoning field full of numbered commit-type lines, the
result is padded with the filler message and contains nothing from the
reasoning text. -/
theorem responseMessages_reasoning_counterexample :
    responseMessages ⟨some "feat: a",
        some "1. fix: improve parsing\n2. docs: update readme\n3. chore: cleanup"⟩
      = ["feat: a", "chore: update project files", "chore: update project files"] ∧
    "fix: improve parsing" ∉
      responseMessages ⟨some "feat: a",
        some "1. fix: improve parsing\n2. docs: update readme\n3. chore: cleanup"⟩ := by
  constructor
  · decide
  · decide

/-- C2 (amended): when the primary content yields fewer than 3 candidates,
`parseMessages` pads the list with the filler message
`"chore: update project files"` until 3 are reached; the auxiliary
reasoning text of the response is never consulted (the result depends only
on the `content` field). -/
theorem responseMessages_pads_with_filler :
    (∀ (c r r' : Option String),
        responseMessages ⟨c, r⟩ = responseMessages ⟨c, r'⟩) ∧
    (∀ raw : List Char,
        parseMessagesL raw =
          collectMsgs (((splitOnNl raw).map jsTrim).filter (· ≠ [])) []
            ++ List.replicate
                (3 - (collectMsgs (((splitOnNl raw).map jsTrim).filter (· ≠ [])) []).length)
                fillerMsg) := by
  constructor
  · intro c r r'
    rfl
  · exact parseMessagesL_eq_pad

/-! ## Helper lemmas about the retry loop -/

theorem genRec_ok (f : Nat → Attempt) (a : Nat) (c : String) (h : f a = .ok c) :
    genRec f a = (.ok (parseMessages c), []) := by
  rw [genRec, h]

theorem genRec_auth (f : Nat → Attempt) (a : Nat) (e : ApiError) (h : f a = .fail e)
    (ha : isAuthError e = true) :
    genRec f a = (.error e, []) := by
  rw [genRec, h]
  simp [ha]

theorem genRec_retry (f : Nat → Attempt) (a : Nat) (e : ApiError) (h : f a = .fail e)
    (ha : isAuthError e = false) (hlt : a < MAX_RETRIES) :
    genRec f a = ((genRec f (a + 1)).1, RETRY_DELAYS.getD a 0 :: (genRec f (a + 1)).2) := by
  rw [genRec, h]
  simp [ha, hlt]

theorem genRec_exhaust (f : Nat → Attempt) (a : Nat) (e : ApiError) (h : f a = .fail e)
    (ha : isAuthError e = false) (hge : ¬ a < MAX_RETRIES) :
    genRec f a = (.error e, []) := by
  rw [genRec, h]
  simp [ha, hge]

/-- C1: `generateCommitMessages` never retries a failure whose status is
401, 403 or 400 (it propagates it at once, with no further delays); any
other failure is retried up to 2 times (3 attempts total) with delays of
1000 ms and then 3000 ms, the last observed error being propagated after
exhaustion; in particular two retriable failures followed by a success
yield exactly the two delays and the parsed result. -/
theorem generateCommitMessages_retry_policy :
    (∀ (f : Nat → Attempt) (e : ApiError), isAuthError e = true → f 0 = .fail e →
        generateCommitMessages f = (.error e, [])) ∧
    (∀ (f : Nat → Attempt) (e0 e1 : ApiError), f 0 = .fail e0 → f 1 = .fail e1 →
        isAuthError e0 = false → isAuthError e1 = true →
        generateCommitMessages f = (.error e1, [1000])) ∧
    (∀ (f : Nat → Attempt) (e0 e1 e2 : ApiError), f 0 = .fail e0 → f 1 = .fail e1 →
        f 2 = .fail e2 → isAuthError e0 = false → isAuthError e1 = false →
        isAuthError e2 = false →
        generateCommitMessages f = (.error e2, [1000, 3000])) ∧
    (∀ (f : Nat → Attempt) (e0 e1 : ApiError) (c : String), f 0 = .fail e0 →
        f 1 = .fail e1 → f 2 = .ok c → isAuthError e0 = false → isAuthError e1 = false →
        generateCommitMessages f = (.ok (parseMessages c), [1000, 3000])) := by
  refine ⟨?_, ?_, ?_, ?_⟩
  · intro f e ha h0
    unfold generateCommitMessages
    rw [genRec_auth f 0 e h0 ha]
  · intro f e0 e1 h0 h1 ha0 ha1
    unfold generateCommitMessages
    rw [genRec_retry f 0 e0 h0 ha0 (by decide), genRec_auth f 1 e1 h1 ha1]
    rfl
  · intro f e0 e1 e2 h0 h1 h2 ha0 ha1 ha2
    unfold generateCommitMessages
    rw [genRec_retry f 0 e0 h0 ha0 (by decide), genRec_retry f 1 e1 h1 ha1 (by decide),
      genRec_exhaust f 2 e2 h2 ha2 (by decide)]
    rfl
  · intro f e0 e1 c h0 h1 h2 ha0 ha1
    unfold generateCommitMessages
    rw [genRec_retry f 0 e0 h0 ha0 (by decide), genRec_retry f 1 e1 h1 ha1 (by decide),
      genRec_ok f 2 c h2]
    rfl

/-- Witness for C1: the simulated failure sequence
(RateLimited, RateLimited, Success) yields exactly the delays 1000 and 3000
and a successful return, while a single Unauthorized failure yields zero
delays and immediate failure. -/
theorem generateCommitMessages_retry_policy_witness :
    generateCommitMessages
        (fun i => if i = 0 then .fail ⟨some 429⟩
          else if i = 1 then .fail ⟨some 429⟩
          else .ok "1. feat: a\n2. fix: b\n3. chore: c")
      = (.ok (parseMessages "1. feat: a\n2. fix: b\n3. chore: c"), [1000, 3000]) ∧
    generateCommitMessages (fun _ => .fail ⟨some 401⟩) = (.error ⟨some 401⟩, []) :=
  ⟨generateCommitMessages_retry_policy.2.2.2
      (fun i => if i = 0 then .fail ⟨some 429⟩
        else if i = 1 then .fail ⟨some 429⟩
        else .ok "1. feat: a\n2. fix: b\n3. chore: c")
      ⟨some 429⟩ ⟨some 429⟩ "1. feat: a\n2. fix: b\n3. chore: c"
      rfl rfl rfl (by decide) (by decide),
    generateCommitMessages_retry_policy.1 (fun _ => .fail ⟨some 401⟩) ⟨some 401⟩
      (by decide) rfl⟩

/-! ## Helper lemmas about the selector -/

theorem onKeyCursor_upDown_lt (n : Nat) (hn : 0 < n) (cursor : Nat) (k : List Char)
    (hk : isUpDownKey k) : onKeyCursor n cursor k < n := by
  rcases hk with rfl | rfl | rfl | rfl
  · exact Nat.mod_lt _ hn
  · exact Nat.mod_lt _ hn
  · exact Nat.mod_lt _ hn
  · exact Nat.mod_lt _ hn

theorem foldl_onKeyCursor_lt (n : Nat) (hn : 0 < n) :
    ∀ (keys : List (List Char)) (cursor : Nat),
      (∀ k ∈ keys, isUpDownKey k) → keys.foldl (onKeyCursor n) cursor < n ∨ keys = [] := by
  intro keys
  induction keys with
  | nil => intro cursor _; exact Or.inr rfl
  | cons k ks ih =>
    intro cursor hk
    left
    rw [List.foldl_cons]
    rcases ih (onKeyCursor n cursor k) (fun k' h' => hk k' (List.mem_cons_of_mem _ h')) with
      h | h
    · exact h
    · rw [h, List.foldl_nil]
      exact onKeyCursor_upDown_lt n hn cursor k (hk k (List.mem_cons_self k ks))

/-- C3: the selector cursor starts at 0 and, after any sequence of up/down
key events on a nonempty options list of length n, stays within [0, n); an
up event at cursor 0 wraps to n-1, and a down event at cursor n-1 wraps
to 0. -/
theorem select_cursor_invariant (n : Nat) (hn : 0 < n) :
    selectInitialCursor = 0 ∧
    (∀ keys : List (List Char), (∀ k ∈ keys, isUpDownKey k) →
        keys.foldl (onKeyCursor n) selectInitialCursor < n) ∧
    (∀ k : List Char, (k = "\x1b[A".data ∨ k = "k".data) → onKeyCursor n 0 k = n - 1) ∧
    (∀ k : List Char, (k = "\x1b[B".data ∨ k = "j".data) → onKeyCursor n (n - 1) k = 0) := by
  refine ⟨rfl, ?_, ?_, ?_⟩
  · intro keys hk
    rcases foldl_onKeyCursor_lt n hn keys selectInitialCursor hk with h | h
    · exact h
    · rw [h, List.foldl_nil]
      exact hn
  · intro k hk
    have hup : (0 + n - 1) % n = n - 1 := by
      rw [Nat.zero_add]
      exact Nat.mod_eq_of_lt (by omega)
    rcases hk with rfl | rfl
    · exact hup
    · exact hup
  · intro k hk
    have hdown : (n - 1 + 1) % n = 0 := by
      have : n - 1 + 1 = n := by omega
      rw [this, Nat.mod_self]
    rcases hk with rfl | rfl
    · exact hdown
    · exact hdown

/-- Witness for C3 at a concrete 3-element selector. -/
theorem select_cursor_invariant_witness :
    ["\x1b[A".data, "j".data, "j".data].foldl (onKeyCursor 3) selectInitialCursor < 3 ∧
    onKeyCursor 3 0 "k".data = 2 ∧
    onKeyCursor 3 2 "j".data = 0 :=
  ⟨(select_cursor_invariant 3 (by decide)).2.1 _ (by decide),
    (select_cursor_invariant 3 (by decide)).2.2.1 "k".data (Or.inr rfl),
    (select_cursor_invariant 3 (by decide)).2.2.2 "j".data (Or.inr rfl)⟩

/-- C7 counterexample: with 10 options, pressing the digit key 2 (so d = 2
with 1 ≤ d ≤ n) leaves the cursor at 0 instead of moving it to d-1 = 1,
because the key is compared with the string "10" lexicographically. -/
theorem select_digit_jump_counterexample :
    onKeyCursor 10 0 "2".data = 0 ∧ onKeyCursor 10 0 "2".data ≠ 2 - 1 := by
  decide

/-- C7 (amended): for selectors with at most 9 options, pressing a digit
key d with 1 ≤ d ≤ n sets the cursor to d-1 regardless of the prior cursor
position; for n ≥ 10 the lexicographic guard can ignore valid digits. -/
theorem select_digit_jump_amended (n cursor d : Nat) (hn : n ≤ 9) (hd1 : 1 ≤ d)
    (hdn : d ≤ n) : onKeyCursor n cursor [Char.ofNat (48 + d)] = d - 1 := by
  have hn1 : 1 ≤ n := le_trans hd1 hdn
  interval_cases n <;> interval_cases d <;> rfl

/-- Witness for C7 (amended) at a concrete selector of 3 options. -/
theorem select_digit_jump_amended_witness :
    onKeyCursor 3 2 [Char.ofNat (48 + 1)] = 1 - 1 :=
  select_digit_jump_amended 3 2 1 (by decide) (by decide) (by decide)

/-- C4 counterexample: the Ctrl+C branch of the raw-mode keypress handler
exits the process with status 0, not with the conventional interrupt
status 130. -/
theorem select_ctrlC_counterexample :
    (TermEffect.exitProcess 0) ∈ ctrlCEffects true ∧
    (TermEffect.exitProcess 130) ∉ ctrlCEffects true := by
  decide

/-- C4 (amended): when Ctrl+C is received by the raw-mode keypress handler,
the process leaves raw mode and shows the cursor before terminating, but it
exits with status 0; the separate SIGINT handler (which raw mode prevents
from firing on Ctrl+C) is the path that restores the terminal and exits
with status 130. -/
theorem select_ctrlC_amended :
    (TermEffect.setRawMode false) ∈ ctrlCEffects true ∧
    (TermEffect.write "\x1b[?25h") ∈ ctrlCEffects true ∧
    (∀ code : Nat, (TermEffect.exitProcess code) ∈ ctrlCEffects true → code = 0) ∧
    List.indexOf (TermEffect.setRawMode false) (ctrlCEffects true) <
      List.indexOf (TermEffect.exitProcess 0) (ctrlCEffects true) ∧
    List.indexOf (TermEffect.write "\x1b[?25h") (ctrlCEffects true) <
      List.indexOf (TermEffect.exitProcess 0) (ctrlCEffects true) ∧
    (TermEffect.exitProcess 130) ∈ sigintEffects true true ∧
    (TermEffect.setRawMode false) ∈ sigintEffects true true := by
  refine ⟨by decide, by decide, ?_, by decide, by decide, by decide, by decide⟩
  intro code hc
  simp only [ctrlCEffects, cleanupEffects, restoreCursorEffects, if_pos, List.mem_append,
    List.mem_cons, List.mem_singleton] at hc
  rcases hc with (h | h | h) | h | h | h <;> simp_all

/-- Witness for C4 (amended): the only exit code on the Ctrl+C path is 0. -/
theorem select_ctrlC_amended_witness : (0 : Nat) = 0 :=
  select_ctrlC_amended.2.2.1 0 (by decide)

/-! ## Helper lemmas about line cleanup -/

theorem stripEnum_numbered (ds rest : List Char) (m : Char) (hne : ds ≠ [])
    (hds : ∀ c ∈ ds, c.isDigit = true) (hm : isEnumMark m = true) :
    stripEnum (ds ++ m :: rest) = rest.dropWhile isJsWs := by
  have hmd : m.isDigit = false := by
    have hm' : ((m = '.' ∨ m = ')') ∨ m = ':') ∨ m = '-' := by
      simpa [isEnumMark] using hm
    rcases hm' with ((rfl | rfl) | rfl) | rfl <;> decide
  unfold stripEnum
  rw [List.takeWhile_append_of_pos (by simpa using hds),
    List.dropWhile_append_of_pos (by simpa using hds),
    List.takeWhile_cons_of_neg (by simp [hmd]),
    List.dropWhile_cons_of_neg (by simp [hmd]),
    List.append_nil]
  rw [if_neg (by simpa using hne)]
  exact if_pos hm

theorem stripQuotes_cons (q : Char) (l : List Char) (hq : isQuoteChar q = true) :
    stripQuotes (q :: l) = stripQuotes l := by
  unfold stripQuotes
  rw [List.dropWhile_cons_of_pos (by simp [hq])]

theorem stripQuotes_concat (q : Char) (l : List Char) (hq : isQuoteChar q = true) :
    stripQuotes (l ++ [q]) = stripQuotes l := by
  unfold stripQuotes
  rw [List.dropWhile_append]
  split
  · rename_i hemp
    have h1 : List.dropWhile isQuoteChar [q] = [] := by
      rw [List.dropWhile_cons_of_pos (by simp [hq])]
      rfl
    have h2 : l.dropWhile isQuoteChar = [] := by
      simpa [List.isEmpty_iff] using hemp
    rw [h1, h2]
  · rw [List.reverse_append]
    simp only [List.reverse_cons, List.reverse_nil, List.nil_append, List.singleton_append]
    rw [List.dropWhile_cons_of_pos (by simp [hq])]

/-- C5 counterexample: bare dash and star bullets are not stripped by the
parser; the cleaned lines retain their markers. -/
theorem parseMessages_stripping_counterexample :
    parseMessages "- feat: add dash\n* chore: add star" =
      ["- feat: add dash", "* chore: add star", "chore: update project files"] ∧
    "feat: add dash" ∉ parseMessages "- feat: add dash\n* chore: add star" ∧
    "chore: add star" ∉ parseMessages "- feat: add dash\n* chore: add star" := by
  refine ⟨by decide, by decide, by decide⟩

/-- C5 (amended): the parser strips leading enumeration markers of the
numbered forms "N. ", "N) ", "N- ", "N: " (at least one digit, then the
marker character, then any whitespace) and strips the surrounding runs of
quote characters; bare "- " and "* " markers are left in place. -/
theorem parseMessages_stripping_amended :
    (∀ (ds rest : List Char) (m : Char), ds ≠ [] → (∀ c ∈ ds, c.isDigit = true) →
        isEnumMark m = true → stripEnum (ds ++ m :: rest) = rest.dropWhile isJsWs) ∧
    (∀ rest : List Char, stripEnum ('-' :: rest) = '-' :: rest) ∧
    (∀ rest : List Char, stripEnum ('*' :: rest) = '*' :: rest) ∧
    (∀ (q : Char) (l : List Char), isQuoteChar q = true →
        stripQuotes (q :: l) = stripQuotes l ∧ stripQuotes (l ++ [q]) = stripQuotes l) := by
  refine ⟨stripEnum_numbered, fun rest => rfl, fun rest => rfl, ?_⟩
  intro q l hq
  exact ⟨stripQuotes_cons q l hq, stripQuotes_concat q l hq⟩

/-- Witness for C5 (amended) at concrete lines. -/
theorem parseMessages_stripping_amended_witness :
    stripEnum (['1'] ++ '.' :: " feat: x".data) = " feat: x".data.dropWhile isJsWs ∧
    stripQuotes ('"' :: "msg".data) = stripQuotes "msg".data :=
  ⟨parseMessages_stripping_amended.1 ['1'] " feat: x".data '.' (by decide) (by decide)
      (by decide),
    (parseMessages_stripping_amended.2.2.2 '"' "msg".data (by decide)).1⟩

/-- C10: every porcelain status line of length at least two falls in
exactly one top-level class: "??" contributes only to untracked, "!!" is
skipped entirely, a line whose X or Y is U (or XY is AA or DD) contributes
only to conflicts, and only the remaining lines contribute to staged (X
neither space nor question mark) and unstaged (Y not space). -/
theorem getStatus_classification (x y : Char) (tail : List Char) :
    ((x = '?' ∧ y = '?') →
      (processLine (x :: y :: tail)).untracked ≠ [] ∧
      (processLine (x :: y :: tail)).staged = [] ∧
      (processLine (x :: y :: tail)).unstaged = [] ∧
      (processLine (x :: y :: tail)).conflicts = []) ∧
    ((x = '!' ∧ y = '!') → processLine (x :: y :: tail) = emptyStatus) ∧
    (¬(x = '?' ∧ y = '?') → ¬(x = '!' ∧ y = '!') →
      (x = 'U' ∨ y = 'U' ∨ (x = 'A' ∧ y = 'A') ∨ (x = 'D' ∧ y = 'D')) →
      (processLine (x :: y :: tail)).conflicts ≠ [] ∧
      (processLine (x :: y :: tail)).staged = [] ∧
      (processLine (x :: y :: tail)).unstaged = [] ∧
      (processLine (x :: y :: tail)).untracked = []) ∧
    (¬(x = '?' ∧ y = '?') → ¬(x = '!' ∧ y = '!') →
      ¬(x = 'U' ∨ y = 'U' ∨ (x = 'A' ∧ y = 'A') ∨ (x = 'D' ∧ y = 'D')) →
      (processLine (x :: y :: tail)).untracked = [] ∧
      (processLine (x :: y :: tail)).conflicts = [] ∧
      ((processLine (x :: y :: tail)).staged ≠ [] ↔ (x ≠ ' ' ∧ x ≠ '?')) ∧
      ((processLine (x :: y :: tail)).unstaged ≠ [] ↔ y ≠ ' ')) := by
  refine ⟨?_, ?_, ?_, ?_⟩
  · intro h
    simp only [processLine]
    rw [if_pos h]
    exact ⟨by simp, rfl, rfl, rfl⟩
  · intro h
    simp only [processLine]
    rw [if_neg (by rcases h with ⟨rfl, rfl⟩; decide), if_pos h]
  · intro h1 h2 h3
    simp only [processLine]
    rw [if_neg h1, if_neg h2, if_pos h3]
    exact ⟨by simp, rfl, rfl, rfl⟩
  · intro h1 h2 h3
    simp only [processLine]
    rw [if_neg h1, if_neg h2, if_neg h3]
    refine ⟨rfl, rfl, ?_, ?_⟩
    · by_cases hx : x ≠ ' ' ∧ x ≠ '?'
      · rw [if_pos hx]
        simp [hx]
      · rw [if_neg hx]
        simp [hx]
    · by_cases hy : y ≠ ' '
      · rw [if_pos hy]
        simp [hy]
      · rw [if_neg hy]
        simp [hy]

/-- Witness for C10 at concrete porcelain lines. -/
theorem getStatus_classification_witness :
    (processLine ('?' :: '?' :: " n.txt".data)).untracked ≠ [] ∧
    processLine ('!' :: '!' :: " i.log".data) = emptyStatus ∧
    (processLine ('U' :: 'U' :: " c.c".data)).conflicts ≠ [] ∧
    ((processLine ('M' :: ' ' :: " a.js".data)).staged ≠ [] ↔ ('M' ≠ ' ' ∧ 'M' ≠ '?')) :=
  ⟨((getStatus_classification '?' '?' " n.txt".data).1 ⟨rfl, rfl⟩).1,
    (getStatus_classification '!' '!' " i.log".data).2.1 ⟨rfl, rfl⟩,
    ((getStatus_classification 'U' 'U' " c.c".data).2.2.1 (by decide) (by decide)
        (Or.inl rfl)).1,
    ((getStatus_classification 'M' ' ' " a.js".data).2.2.2 (by decide) (by decide)
        (by decide)).2.2.1⟩

/-! ## Helper lemmas about diff bundling -/

theorem containsCL_eq_false_of_not_mem (p : Char) (ps : List Char) :
    ∀ h : List Char, p ∉ h → containsCL h (p :: ps) = false := by
  intro h
  induction h with
  | nil => intro _; rfl
  | cons c t ih =>
    intro hp
    have hpc : (p == c) = false := by
      simp only [beq_eq_false_iff_ne, ne_eq]
      intro hcon
      exact hp (by rw [hcon]; exact List.mem_cons_self c t)
    rw [containsCL]
    have hpre : (p :: ps).isPrefixOf (c :: t) = false := by
      simp [List.isPrefixOf, hpc]
    rw [hpre, Bool.false_or]
    exact ih (fun hmem => hp (List.mem_cons_of_mem c hmem))

theorem isBinaryDiffPart_of_long (d : List Char) (hd : 200 ≤ d.length) :
    isBinaryDiffPart d = false := by
  unfold isBinaryDiffPart
  have hlt : decide (d.length < 200) = false := by
    simp only [decide_eq_false_iff_not, not_lt]
    exact hd
  rw [hlt, Bool.and_false]

theorem processFile_oversize (f d : List Char) (hb : isBinaryDiffPart d = false)
    (hlen : MAX_PER_FILE < d.length) :
    processFile f d = (d.take MAX_PER_FILE ++ fileTruncMarker f,
      (d.take MAX_PER_FILE ++ fileTruncMarker f).length) := by
  unfold processFile
  rw [hb, if_neg (by simp), if_pos hlen]

theorem processFile_small (f d : List Char) (hb : isBinaryDiffPart d = false)
    (hlen : ¬ MAX_PER_FILE < d.length) :
    processFile f d = (d, d.length) := by
  unfold processFile
  rw [hb, if_neg (by simp), if_neg hlen]

theorem bundleFiles_step3000 (f : List Char) (rest : List (List Char × List Char))
    (total : Nat) (hlt : total < MAX_TOTAL) :
    bundleFiles ((f, List.replicate 3000 'x') :: rest) total
      = (List.replicate 3000 'x' :: (bundleFiles rest (total + 3000)).1,
         (bundleFiles rest (total + 3000)).2) := by
  rw [bundleFiles, if_neg (by omega)]
  have hp : processFile f (List.replicate 3000 'x') = (List.replicate 3000 'x', 3000) := by
    rw [processFile_small f _ (isBinaryDiffPart_of_long _ (by rw [List.length_replicate]; omega))
      (by rw [List.length_replicate]; decide)]
    rw [List.length_replicate]
  rw [hp]

/-- A five-file input on which the bundling loop actually skips a file:
four 3000-character diffs exhaust the 12000-character budget, so the fifth
file is omitted and counted. -/
theorem bundleFiles_fiveFiles :
    bundleFiles [("a".data, List.replicate 3000 'x'), ("b".data, List.replicate 3000 'x'),
        ("c".data, List.replicate 3000 'x'), ("d".data, List.replicate 3000 'x'),
        ("e".data, "y".data)] 0
      = ([List.replicate 3000 'x', List.replicate 3000 'x', List.replicate 3000 'x',
          List.replicate 3000 'x'], 1) := by
  rw [bundleFiles_step3000 _ _ _ (by decide), bundleFiles_step3000 _ _ _ (by decide),
    bundleFiles_step3000 _ _ _ (by decide), bundleFiles_step3000 _ _ _ (by decide)]
  rw [bundleFiles, if_pos (by decide)]
  rfl

/-- C8 counterexample: a single staged file with a 12001-character diff.
The concatenated diffs exceed the 12000-character budget, yet the bundled
output contains no omitted-files marker (nothing was omitted: per-file
truncation shrank the content below the budget), and the single included
part is longer than the 3000-character per-file cap because the per-file
truncation marker is appended after the cap is applied. -/
theorem getStagedDiff_truncation_counterexample :
    12000 < (([("a.js".data, List.replicate 12001 'x')].map
        (fun fd => fd.2.length)).sum) ∧
    (∃ p ∈ (bundleFiles [("a.js".data, List.replicate 12001 'x')] 0).1,
        MAX_PER_FILE < p.length) ∧
    containsCL (getStagedDiffBundle [("a.js".data, List.replicate 12001 'x')])
        "omitted".data = false := by
  have hb : isBinaryDiffPart (List.replicate 12001 'x') = false :=
    isBinaryDiffPart_of_long _ (by rw [List.length_replicate]; omega)
  have hp : processFile "a.js".data (List.replicate 12001 'x')
      = (List.replicate 3000 'x' ++ fileTruncMarker "a.js".data,
         (List.replicate 3000 'x' ++ fileTruncMarker "a.js".data).length) := by
    rw [processFile_oversize _ _ hb (by rw [List.length_replicate]; decide)]
    rw [show (List.replicate 12001 'x').take MAX_PER_FILE = List.replicate 3000 'x' by
      rw [List.take_replicate, show MAX_PER_FILE ⊓ 12001 = 3000 by decide]]
  have hbf : bundleFiles [("a.js".data, List.replicate 12001 'x')] 0
      = ([List.replicate 3000 'x' ++ fileTruncMarker "a.js".data], 0) := by
    rw [bundleFiles, if_neg (by decide), hp]
    rfl
  refine ⟨?_, ?_, ?_⟩
  · simp only [List.map_cons, List.map_nil, List.sum_cons, List.sum_nil,
      List.length_replicate]
    omega
  · refine ⟨List.replicate 3000 'x' ++ fileTruncMarker "a.js".data, ?_, ?_⟩
    · rw [hbf]
      exact List.mem_singleton_self _
    · rw [List.length_append, List.length_replicate]
      decide
  · unfold getStagedDiffBundle
    rw [hbf]
    simp only
    rw [if_neg (by decide)]
    rw [show List.intercalate "\n".data
        [List.replicate 3000 'x' ++ fileTruncMarker "a.js".data]
        = List.replicate 3000 'x' ++ fileTruncMarker "a.js".data by
      unfold List.intercalate
      rw [List.intersperse_single, List.flatten_cons, List.flatten_nil, List.append_nil]]
    apply containsCL_eq_false_of_not_mem
    intro hmem
    rcases List.mem_append.mp hmem with h | h
    · exact absurd (List.eq_of_mem_replicate h) (by decide)
    · exact absurd h (by decide)

/-- C8 (amended): the bundling loop begins a new file only while the
running total is under the 12000-character budget (once the budget is
reached, every remaining file is skipped and counted); the reported skip
count plus the number of included parts always equals the number of input
files; when at least one file is skipped the omitted-files marker with the
exact count is appended; and each included non-binary part consists of at
most the first 3000 characters of its diff, exceeding 3000 only by the
length of the appended per-file truncation marker. -/
theorem getStagedDiff_truncation_amended :
    (∀ (f d : List Char), isBinaryDiffPart d = false →
        (processFile f d).1.length ≤ MAX_PER_FILE + (fileTruncMarker f).length ∧
        (processFile f d).1.take MAX_PER_FILE = d.take MAX_PER_FILE) ∧
    (∀ (files : List (List Char × List Char)) (total : Nat),
        (bundleFiles files total).1.length + (bundleFiles files total).2 = files.length) ∧
    (∀ (files : List (List Char × List Char)) (total : Nat), MAX_TOTAL ≤ total →
        bundleFiles files total = ([], files.length)) ∧
    (∀ files : List (List Char × List Char), 0 < (bundleFiles files 0).2 →
        getStagedDiffBundle files =
          List.intercalate "\n".data
            ((bundleFiles files 0).1 ++ [omittedMarker (bundleFiles files 0).2])) := by
  refine ⟨?_, ?_, ?_, ?_⟩
  · intro f d hb
    by_cases hlen : MAX_PER_FILE < d.length
    · rw [processFile_oversize f d hb hlen]
      constructor
      · rw [List.length_append, List.length_take]
        omega
      · rw [List.take_append_of_le_length (by rw [List.length_take]; omega),
          List.take_take, Nat.min_self]
    · rw [processFile_small f d hb hlen]
      constructor
      · show d.length ≤ MAX_PER_FILE + (fileTruncMarker f).length
        omega
      · rfl
  · intro files
    induction files with
    | nil => intro total; simp [bundleFiles]
    | cons fd rest ih =>
      intro total
      obtain ⟨f, d⟩ := fd
      rw [bundleFiles]
      by_cases h : MAX_TOTAL ≤ total
      · rw [if_pos h]
        simp
      · rw [if_neg h]
        have := ih (total + (processFile f d).2)
        simp only [List.length_cons]
        omega
  · intro files total h
    cases files with
    | nil => rfl
    | cons fd rest =>
      obtain ⟨f, d⟩ := fd
      rw [bundleFiles, if_pos h]
  · intro files h
    show List.intercalate "\n".data
        (if 0 < (bundleFiles files 0).2
          then (bundleFiles files 0).1 ++ [omittedMarker (bundleFiles files 0).2]
          else (bundleFiles files 0).1)
      = List.intercalate "\n".data
          ((bundleFiles files 0).1 ++ [omittedMarker (bundleFiles files 0).2])
    rw [if_pos h]

/-- Witness for C8 (amended) at concrete inputs, including the five-file
input on which a file is actually skipped and the marker is appended. -/
theorem getStagedDiff_truncation_amended_witness :
    (processFile "f".data "ab".data).1.take MAX_PER_FILE = "ab".data.take MAX_PER_FILE ∧
    bundleFiles [("a".data, "b".data)] 12000 = ([], 1) ∧
    getStagedDiffBundle [("a".data, List.replicate 3000 'x'),
        ("b".data, List.replicate 3000 'x'), ("c".data, List.replicate 3000 'x'),
        ("d".data, List.replicate 3000 'x'), ("e".data, "y".data)]
      = List.intercalate "\n".data
          ((bundleFiles [("a".data, List.replicate 3000 'x'),
              ("b".data, List.replicate 3000 'x'), ("c".data, List.replicate 3000 'x'),
              ("d".data, List.replicate 3000 'x'), ("e".data, "y".data)] 0).1
            ++ [omittedMarker (bundleFiles [("a".data, List.replicate 3000 'x'),
                ("b".data, List.replicate 3000 'x'), ("c".data, List.replicate 3000 'x'),
                ("d".data, List.replicate 3000 'x'), ("e".data, "y".data)] 0).2]) :=
  ⟨(getStagedDiff_truncation_amended.1 "f".data "ab".data (by decide)).2,
    getStagedDiff_truncation_amended.2.2.1 [("a".data, "b".data)] 12000 (by decide),
    getStagedDiff_truncation_amended.2.2.2 _ (by rw [bundleFiles_fiveFiles]; decide)⟩

end Zcommit
